import Mathlib

/-!
Verification of the group/series aggregation engine of the
`canada_spends_dashboard` repository.

The development shallowly embeds the Python code of
`src/build_dashboards.py` (namespace `BuildDashboards`) and the legacy
`update_data.py` (namespace `UpdateData`).  Scalar record values
(strings and numbers) become the `Scalar` type; Python floats are
modelled exactly by rationals (`ℚ`); Python dicts and sets become
insertion-ordered association lists, matching CPython's dict iteration
order (CPython set iteration order is implementation defined; the model
fixes first-insertion order, which no theorem's truth depends on).
Operations that can raise (`sorted` on mixed types, `.lower()` on a
number) return `Except PyErr`.
-/

/-- A scalar record value: a string or a number.  Python distinguishes
`int` from `float`; both are modelled by `ℚ` since they compare, hash
and coerce identically everywhere the aggregation engine looks at them
(only their `str()` rendering differs, which no theorem depends on).
An absent field is modelled by absence from the record, not by a
`Scalar`. -/
inductive Scalar where
  | str (s : String)
  | num (q : ℚ)
deriving DecidableEq, Repr

/-- Python exceptions that the embedded code can actually raise. -/
inductive PyErr where
  | typeError
  | attributeError
deriving DecidableEq, Repr

/-- Python truthiness of a scalar: empty string and zero are falsy. -/
def Scalar.truthy : Scalar → Bool
  | .str s => !(s == "")
  | .num q => !(q == 0)

def Scalar.isStr : Scalar → Bool
  | .str _ => true
  | .num _ => false

def Scalar.isNum : Scalar → Bool
  | .str _ => false
  | .num _ => true

/-- String payload of a scalar (`""` on numbers; used only where the
scalar is known to be a string). -/
def Scalar.strD : Scalar → String
  | .str s => s
  | .num _ => ""

/-- Numeric payload of a scalar (`0` on strings; used only where the
scalar is known to be a number). -/
def Scalar.numD : Scalar → ℚ
  | .str _ => 0
  | .num q => q

/-- Python `str()` of a scalar.  Strings are returned unchanged and
integers render as their decimal digits, as in Python.  Python renders
non-integral floats in shortest round-trip decimal notation; the model
renders them as `num/den`, a discrepancy no theorem depends on (the
rendering is only searched for digit patterns or substrings). -/
def pyStr : Scalar → String
  | .str s => s
  | .num q => if q.den = 1 then toString q.num else toString q.num ++ "/" ++ toString q.den

/-- The six ASCII whitespace characters stripped by Python's
`str.strip()` / `float()` / `int()` (their further Unicode whitespace
is irrelevant here). -/
def pyIsSpace (c : Char) : Bool :=
  c == ' ' || c == '\t' || c == '\n' || c == '\r' || c == '\x0b' || c == '\x0c'

/-- Python `str.strip()`: remove leading and trailing whitespace. -/
def pyStrip (s : String) : String :=
  String.mk (((s.toList.dropWhile pyIsSpace).reverse.dropWhile pyIsSpace).reverse)

/-- Decimal value of a list of digit characters. -/
def digitsToNat (cs : List Char) : Nat :=
  cs.foldl (fun n c => n * 10 + (c.toNat - 48)) 0

/-- Python `float(str)`: optional surrounding whitespace, optional
sign, then a decimal literal `digits [. digits] [(e|E) [sign] digits]`
with at least one digit in the mantissa, consuming the whole string.
The exact decimal value is produced as a rational (built with `mkRat`
from the concatenated digits: the integer-and-fraction digit string
over `10 ^ fractionLength`, scaled by the exponent), idealizing
Python's rounding to the nearest binary double.  (`inf`/`nan` and
digit-separating underscores, which real `float()` also accepts, are
outside the model: the numeric domain is `ℚ` and no claim involves
them.)  Returns `none` where `float()` raises `ValueError`. -/
def pyFloat (s : String) : Option ℚ :=
  let cs := (pyStrip s).toList
  let (sgnNeg, cs) :=
    match cs with
    | '+' :: rest => (false, rest)
    | '-' :: rest => (true, rest)
    | _ => (false, cs)
  let ip := cs.takeWhile Char.isDigit
  let cs := cs.dropWhile Char.isDigit
  let (fp, cs) :=
    match cs with
    | '.' :: rest => (rest.takeWhile Char.isDigit, rest.dropWhile Char.isDigit)
    | _ => ([], cs)
  if ip.isEmpty && fp.isEmpty then none
  else
    let m : Int := if sgnNeg then -(digitsToNat (ip ++ fp) : Int) else (digitsToNat (ip ++ fp) : Int)
    match cs with
    | [] => some (mkRat m ((10 : Nat) ^ fp.length))
    | e :: rest =>
      if e == 'e' || e == 'E' then
        let (eNeg, rest) :=
          match rest with
          | '+' :: r => (false, r)
          | '-' :: r => (true, r)
          | _ => (false, rest)
        let ed := rest.takeWhile Char.isDigit
        let rest := rest.dropWhile Char.isDigit
        if ed.isEmpty || !rest.isEmpty then none
        else if eNeg then some (mkRat m ((10 : Nat) ^ (fp.length + digitsToNat ed)))
        else some (mkRat (m * (10 : Int) ^ digitsToNat ed) ((10 : Nat) ^ fp.length))
      else none

/-- Python `int(str)`: optional surrounding whitespace, optional sign,
a nonempty digit run, nothing else.  (Digit-separating underscores are
outside the model.)  Returns `none` where `int()` raises `ValueError`. -/
def pyParseInt (s : String) : Option Int :=
  let cs := (pyStrip s).toList
  let (sgnNeg, cs) :=
    match cs with
    | '+' :: rest => (false, rest)
    | '-' :: rest => (true, rest)
    | _ => (false, cs)
  if cs.isEmpty || !cs.all Char.isDigit then none
  else some (if sgnNeg then -(digitsToNat cs : Int) else (digitsToNat cs : Int))

/-- Python `int()` applied to a number: truncation toward zero
(`num.tdiv den` is exactly that, the denominator being positive). -/
def pyTruncRat (q : ℚ) : Int :=
  q.num.tdiv q.den

/-- Python `int(x)` on a scalar; `none` where it raises `ValueError`. -/
def pyIntOfScalar : Scalar → Option Int
  | .num q => some (pyTruncRat q)
  | .str s => pyParseInt s

/-- The integer sort key of a scalar, meaningful where
`pyIntOfScalar` is known to succeed. -/
def pyIntKey (x : Scalar) : Int :=
  (pyIntOfScalar x).getD 0

/-- Python's `needle in hay` on strings: substring containment. -/
def strContainsSub (hay needle : String) : Bool :=
  decide (needle.toList <:+: hay.toList)

/-- A record: an insertion-ordered field-name → scalar map. -/
def Row := List (String × Scalar)

/-- First binding of a field, `none` when the field is absent. -/
def Row.get? : Row → String → Option Scalar
  | [], _ => none
  | (k, v) :: rest, f => if k = f then some v else Row.get? rest f

/-- Python `row.get(field, default)`. -/
def Row.get (row : Row) (f : String) (d : Scalar) : Scalar :=
  (row.get? f).getD d

/-! ### Insertion-ordered dicts and sets

`defaultdict(float)` / `defaultdict(lambda: defaultdict(float))` and
`set()` become association lists / duplicate-free lists kept in
insertion order. -/

/-- Lookup in a `defaultdict(float)`-style map: missing keys read 0. -/
def alGet : List (Scalar × ℚ) → Scalar → ℚ
  | [], _ => 0
  | (k, v) :: rest, k' => if k = k' then v else alGet rest k'

/-- `m[k] += v` on a `defaultdict(float)`: an existing key keeps its
position (CPython dicts update in place), a new key is appended. -/
def alAdd (k : Scalar) (v : ℚ) : List (Scalar × ℚ) → List (Scalar × ℚ)
  | [] => [(k, v)]
  | (k', v') :: rest => if k' = k then (k', v' + v) :: rest else (k', v') :: alAdd k v rest

/-- The inner dict of a two-level `defaultdict` (`totals[g]`), missing
groups reading as the empty dict. -/
def tGetG : List (Scalar × List (Scalar × ℚ)) → Scalar → List (Scalar × ℚ)
  | [], _ => []
  | (k, m) :: rest, k' => if k = k' then m else tGetG rest k'

/-- `totals[g][s] += v` on the two-level `defaultdict`. -/
def tAdd (g s : Scalar) (v : ℚ) : List (Scalar × List (Scalar × ℚ)) → List (Scalar × List (Scalar × ℚ))
  | [] => [(g, alAdd s v [])]
  | (g', m) :: rest => if g' = g then (g', alAdd s v m) :: rest else (g', m) :: tAdd g s v rest

/-- `totals[g][s]` read through both defaults. -/
def tGet (t : List (Scalar × List (Scalar × ℚ))) (g s : Scalar) : ℚ :=
  alGet (tGetG t g) s

/-- `set.add`: no-op on a member, otherwise appended (the model's
deterministic stand-in for CPython's unspecified set iteration order;
no theorem's truth depends on the order chosen). -/
def setAdd (x : Scalar) (l : List Scalar) : List Scalar :=
  if x ∈ l then l else l ++ [x]

/-- Python list slicing `l[:n]` for a possibly negative `n`:
nonnegative `n` keeps the first `n` elements, negative `n` drops the
last `-n` (clamped at the empty list). -/
def pySlice (n : Int) (l : List α) : List α :=
  if 0 ≤ n then l.take n.toNat else l.take (l.length - (-n).toNat)

/-! ### Sort orders

Python's `sorted` is a stable sort; `List.insertionSort` is also
stable, and stable sorts under the same total preorder agree, so the
model sorts by insertion. -/

/-- Order of `sorted(groups_set, key=lambda x: int(x))`: ascending by
integer key. -/
def intKeyLe (a b : Scalar) : Prop := pyIntKey a ≤ pyIntKey b

instance : DecidableRel intKeyLe :=
  fun a b => inferInstanceAs (Decidable (pyIntKey a ≤ pyIntKey b))

instance : IsTotal Scalar intKeyLe := ⟨fun a b => Int.le_total (pyIntKey a) (pyIntKey b)⟩

instance : IsTrans Scalar intKeyLe := ⟨fun _ _ _ => Int.le_trans⟩

/-- Three-way lexicographic comparison of character lists by code
point: Python's string comparison. -/
def pyCmpChars : List Char → List Char → Ordering
  | [], [] => .eq
  | [], _ :: _ => .lt
  | _ :: _, [] => .gt
  | a :: as, b :: bs =>
    if a.toNat < b.toNat then .lt
    else if b.toNat < a.toNat then .gt
    else pyCmpChars as bs

/-- Python `s <= t` on strings. -/
def pyStrLe (s t : String) : Bool :=
  !(pyCmpChars s.toList t.toList == .gt)

theorem pyCmpChars_swap : ∀ a b, pyCmpChars b a = (pyCmpChars a b).swap := by
  intro a
  induction a with
  | nil => intro b; cases b <;> rfl
  | cons x xs ih =>
    intro b
    cases b with
    | nil => rfl
    | cons y ys =>
      simp only [pyCmpChars]
      rcases Nat.lt_trichotomy x.toNat y.toNat with h | h | h
      · rw [if_pos h, if_neg (Nat.lt_asymm h), if_pos h]; rfl
      · rw [if_neg (by omega), if_neg (by omega), if_neg (by omega), if_neg (by omega)]
        exact ih ys
      · rw [if_pos h, if_neg (Nat.lt_asymm h), if_pos h]; rfl

theorem pyCmpChars_trans :
    ∀ a b c, pyCmpChars a b ≠ .gt → pyCmpChars b c ≠ .gt → pyCmpChars a c ≠ .gt := by
  intro a
  induction a with
  | nil => intro b c _ _; cases c <;> simp [pyCmpChars]
  | cons x xs ih =>
    intro b c h1 h2
    cases b with
    | nil => simp [pyCmpChars] at h1
    | cons y ys =>
      cases c with
      | nil => simp [pyCmpChars] at h2
      | cons z zs =>
        simp only [pyCmpChars] at h1 h2 ⊢
        have hyx : ¬(y.toNat < x.toNat) := by
          intro hy
          rw [if_neg (Nat.lt_asymm hy), if_pos hy] at h1
          exact h1 rfl
        have hzy : ¬(z.toNat < y.toNat) := by
          intro hz
          rw [if_neg (Nat.lt_asymm hz), if_pos hz] at h2
          exact h2 rfl
        rcases Nat.lt_trichotomy x.toNat z.toNat with hxz | hxz | hxz
        · rw [if_pos hxz]; simp
        · rw [if_neg (by omega), if_neg (by omega)]
          rw [if_neg (by omega), if_neg (by omega)] at h1
          rw [if_neg (by omega), if_neg (by omega)] at h2
          exact ih ys zs h1 h2
        · omega

/-- Order of the fallback `sorted(groups_set)` on an all-string set:
Python's lexicographic (code-point) string order. -/
def strKeyLe (a b : Scalar) : Prop := pyStrLe a.strD b.strD = true

instance : DecidableRel strKeyLe :=
  fun a b => inferInstanceAs (Decidable (pyStrLe a.strD b.strD = true))

instance : IsTotal Scalar strKeyLe := by
  refine ⟨fun a b => ?_⟩
  unfold strKeyLe pyStrLe
  rw [pyCmpChars_swap a.strD.toList b.strD.toList]
  cases pyCmpChars a.strD.toList b.strD.toList <;> decide

instance : IsTrans Scalar strKeyLe := by
  refine ⟨fun a b c h1 h2 => ?_⟩
  unfold strKeyLe pyStrLe at h1 h2 ⊢
  have conv1 : ∀ x : Ordering, ((!(x == Ordering.gt)) = true ↔ x ≠ Ordering.gt) := by
    intro x
    cases x <;> simp <;> decide
  rw [conv1] at h1 h2 ⊢
  exact pyCmpChars_trans _ _ _ h1 h2

/-- Order of the fallback `sorted(groups_set)` on an all-number set. -/
def numKeyLe (a b : Scalar) : Prop := a.numD ≤ b.numD

instance : DecidableRel numKeyLe :=
  fun a b => inferInstanceAs (Decidable (a.numD ≤ b.numD))

instance : IsTotal Scalar numKeyLe := ⟨fun a b => le_total a.numD b.numD⟩

instance : IsTrans Scalar numKeyLe := ⟨fun _ _ _ => le_trans⟩

/-- Order of `sorted(..., key=lambda s: -series_totals[s])`: descending
grand total (ascending negated key). -/
def totalsDesc (t : List (Scalar × ℚ)) (a b : Scalar) : Prop := alGet t b ≤ alGet t a

instance (t : List (Scalar × ℚ)) : DecidableRel (totalsDesc t) :=
  fun a b => inferInstanceAs (Decidable (alGet t b ≤ alGet t a))

/-- Order of `sorted(group_map.items(), key=lambda x: -x[1])`. -/
def pairDesc (a b : Scalar × ℚ) : Prop := b.2 ≤ a.2

instance : DecidableRel pairDesc := fun a b => inferInstanceAs (Decidable (b.2 ≤ a.2))

/-- `sorted(xs)` on a list of scalars.  CPython compares elementwise:
an all-string list sorts lexicographically, an all-number list sorts
numerically, and a list mixing the two kinds (necessarily comparing a
string with a number somewhere) raises `TypeError`. -/
def pySortedScalars (gs : List Scalar) : Except PyErr (List Scalar) :=
  if gs.all Scalar.isStr then .ok (gs.insertionSort strKeyLe)
  else if gs.all Scalar.isNum then .ok (gs.insertionSort numKeyLe)
  else .error .typeError

/-- Lines 137-141 of `build_dashboards.py` (identical in
`update_data.py` lines 185-189):
`try: groups = sorted(groups_set, key=lambda x: int(x))`
`except ValueError: groups = sorted(groups_set)`.
`sorted` with a key computes every key first, so one unparseable key
sends the whole set to the lexicographic fallback. -/
def sortGroups (gs : List Scalar) : Except PyErr (List Scalar) :=
  if gs.all (fun g => (pyIntOfScalar g).isSome) then
    .ok (gs.insertionSort intKeyLe)
  else pySortedScalars gs

/-! ### Configuration and result shapes -/

/-- The filter dict read by `row_matches_filter` in
`build_dashboards.py`: `field` with the `.get('field', '')` default
applied, and the optional `include` / `contains` lists (`none` models
the key being absent, the code's `'include' in filter_config` tests). -/
structure FilterSpec where
  field : String := ""
  includeList : Option (List Scalar) := none
  containsList : Option (List String) := none
deriving DecidableEq, Repr

/-- An aggregation configuration, with the `config.get(...)` defaults
of both `aggregate_data` implementations resolved into fields.
`filter` is `build_dashboards.py`'s `config.get('filter')`
(`update_data.py` receives its filter, the "mapping", as a separate
argument instead and ignores this field); a `none` filter also models
a present-but-empty (falsy) filter dict, which passes every row just
the same. -/
structure Config where
  groupBy : String := ""
  seriesBy : String := ""
  valueField : String := ""
  extractYear : Bool := false
  minSeriesTotal : ℚ := 0
  maxSeries : Int := 10
  topSeriesPerGroup : Bool := false
  filter : Option FilterSpec := none

/-- One entry of the output `data` list:
`{'group': group, 'series': {s: totals[group].get(s, 0) for s in series_list}}`,
the inner dict in `series_list` order. -/
structure DataEntry where
  group : Scalar
  series : List (Scalar × ℚ)
deriving DecidableEq, Repr

/-- The dict returned by `aggregate_data`. -/
structure AggResult where
  groups : List Scalar
  series : List Scalar
  data : List DataEntry
deriving DecidableEq, Repr

/-- Decidable equality of `Except` results, so that concrete runs can
be checked by `decide`. -/
instance {ε α : Type} [DecidableEq ε] [DecidableEq α] : DecidableEq (Except ε α) := fun a b =>
  match a, b with
  | .ok x, .ok y =>
    if h : x = y then isTrue (by rw [h]) else isFalse (fun hc => h (Except.ok.inj hc))
  | .error x, .error y =>
    if h : x = y then isTrue (by rw [h]) else isFalse (fun hc => h (Except.error.inj hc))
  | .ok _, .error _ => isFalse (fun hc => Except.noConfusion hc)
  | .error _, .ok _ => isFalse (fun hc => Except.noConfusion hc)

/-! ### Shared leaf functions

`to_number` is verbatim identical in `build_dashboards.py` (lines
40-50) and `update_data.py` (lines 88-98), so it is defined once. -/

/-- `to_number(value)`: native numbers pass through, falsy input is 0,
strings have every `'$'`, `','` and `' '` removed (the three
single-character `str.replace` calls) and are then parsed with
`float()`, parse failure reading as 0. -/
def to_number (value : Scalar) : ℚ :=
  match value with
  | .num q => q
  | .str s =>
    if s = "" then 0
    else
      let cleaned := String.mk (s.toList.filter (fun c => !(c == '$' || c == ',' || c == ' ')))
      match pyFloat cleaned with
      | some q => q
      | none => 0

/-- `row.get(field, '') or ''` as both row filters compute it: the
field's value with any falsy value (or absence) replaced by the empty
string. -/
def filterValue (row : Row) (field : String) : Scalar :=
  let v := row.get field (.str "")
  if v.truthy then v else .str ""

/-- `row.get(series_by, 'Total') if series_by else 'Total'`
(`build_dashboards.py` line 109, `update_data.py` line 160). -/
def seriesKey (cfg : Config) (row : Row) : Scalar :=
  if cfg.seriesBy = "" then .str "Total" else row.get cfg.seriesBy (.str "Total")

/-- `to_number(row.get(value_field, 0))` (`build_dashboards.py` line
110, `update_data.py` line 161). -/
def rowValue (cfg : Config) (row : Row) : ℚ :=
  to_number (row.get cfg.valueField (.num 0))

/-- `((a == '1' && b == '9') || (a == '2' && b == '0')) && digits`:
whether four characters match the regex alternative `19\d{2}|20\d{2}`
at this position.  (Python's `\d` also accepts non-ASCII decimal
digits; the model reads it as ASCII `0-9`, the only digits appearing
anywhere in this development.) -/
def yearWindow (a b c d : Char) : Bool :=
  ((a == '1' && b == '9') || (a == '2' && b == '0')) && c.isDigit && d.isDigit

/-- The year match starting exactly at the head of the character list,
if any. -/
def window4? : List Char → Option String
  | a :: b :: c :: d :: _ => if yearWindow a b c d then some (String.mk [a, b, c, d]) else none
  | _ => none

/-- `re.search(r'(19\d{2}|20\d{2})', s)`: leftmost match — try each
start position left to right. -/
def findYearScan : List Char → Option String
  | [] => none
  | c :: rest =>
    match window4? (c :: rest) with
    | some y => some y
    | none => findYearScan rest

/-! ### Accumulator state of the aggregation loop -/

/-- The loop state of `build_dashboards.aggregate_data`: the two-level
`totals`, the `series_totals`, the two key sets and the skipped-row
counter (lines 89-94). -/
structure AggState where
  totals : List (Scalar × List (Scalar × ℚ)) := []
  seriesTotals : List (Scalar × ℚ) := []
  groupsSet : List Scalar := []
  seriesSet : List Scalar := []
  skippedRows : Nat := 0
deriving Repr

def initState : AggState := {}

/-- The "determine which series to include" block: lines 123-135 of
`build_dashboards.py`, verbatim identical to lines 171-183 of
`update_data.py`, so shared by both embeddings.  The per-group branch
runs for truthy (nonzero) `max_series`; each group's inner dict is
ranked by descending per-group sum, sliced, and unioned, then the
union is sorted by descending grand total (without re-applying the
cap).  The global branch filters by `min_series_total`, sorts by
descending grand total and slices. -/
def seriesSelection (cfg : Config) (totals : List (Scalar × List (Scalar × ℚ)))
    (seriesTotals : List (Scalar × ℚ)) (seriesSet : List Scalar) : List Scalar :=
  if cfg.topSeriesPerGroup && !(cfg.maxSeries == 0) then
    let top_series := totals.foldl
      (fun acc p =>
        (pySlice cfg.maxSeries (p.2.insertionSort pairDesc)).foldl
          (fun acc2 q => setAdd q.1 acc2) acc)
      []
    top_series.insertionSort (totalsDesc seriesTotals)
  else
    let filtered := seriesSet.filter (fun s => decide (cfg.minSeriesTotal ≤ alGet seriesTotals s))
    pySlice cfg.maxSeries (filtered.insertionSort (totalsDesc seriesTotals))

/-- Series selection, group sorting and output assembly: lines 123-153
of `build_dashboards.py`, verbatim identical to lines 171-201 of
`update_data.py`, so shared by both embeddings. -/
def finalizeAgg (cfg : Config) (totals : List (Scalar × List (Scalar × ℚ)))
    (seriesTotals : List (Scalar × ℚ)) (groupsSet seriesSet : List Scalar) :
    Except PyErr AggResult :=
  let series_list := seriesSelection cfg totals seriesTotals seriesSet
  match sortGroups groupsSet with
  | .error e => .error e
  | .ok groups =>
    .ok { groups := groups
          series := series_list
          data := groups.map
            (fun g => { group := g, series := series_list.map (fun s => (s, tGet totals g s)) }) }

namespace BuildDashboards

/-- `extract_year` of `build_dashboards.py` (lines 20-37): `None` on
falsy input, otherwise the first `19\d{2}|20\d{2}` match in the
stripped `str()` rendering, `None` when there is none. -/
def extract_year (value : Scalar) : Option String :=
  if !value.truthy then none
  else findYearScan (pyStrip (pyStr value)).toList

/-- `row_matches_filter` (lines 53-75).  The two early `return False`
branches become a conjunction; `none` covers both a missing and a
falsy (empty) filter dict, which the code treats alike. -/
def row_matches_filter (row : Row) (filter_config : Option FilterSpec) : Bool :=
  match filter_config with
  | none => true
  | some fc =>
    let value := filterValue row fc.field
    (match fc.includeList with
     | none => true
     | some lst => decide (value ∈ lst)) &&
    (match fc.containsList with
     | none => true
     | some lst => lst.any (fun item => strContainsSub (pyStr value).toLower item.toLower))

/-- The group key a row ends up with (lines 100-107): the raw
`row.get(group_by, '')`, passed through `extract_year` when the flag
is set — `none` exactly when the row is dropped (and counted) for an
unextractable year. -/
def effGroup (cfg : Config) (row : Row) : Option Scalar :=
  let g0 := row.get cfg.groupBy (.str "")
  if cfg.extractYear then (extract_year g0).map .str else some g0

/-- One iteration of the `for row in rows` loop (lines 96-118). -/
def processRow (cfg : Config) (st : AggState) (row : Row) : AggState :=
  if !row_matches_filter row cfg.filter then st
  else
    match effGroup cfg row with
    | none => { st with skippedRows := st.skippedRows + 1 }
    | some groupValue =>
      let seriesValue := seriesKey cfg row
      let value := rowValue cfg row
      if !groupValue.truthy then st
      else
        { totals := tAdd groupValue seriesValue value st.totals
          seriesTotals := alAdd seriesValue value st.seriesTotals
          groupsSet := setAdd groupValue st.groupsSet
          seriesSet := setAdd seriesValue st.seriesSet
          skippedRows := st.skippedRows }

/-- The whole record loop. -/
def aggLoop (cfg : Config) (st : AggState) (rows : List Row) : AggState :=
  rows.foldl (processRow cfg) st

/-- `aggregate_data(rows, config)` of `build_dashboards.py` (lines
78-153).  The skipped-row count is reported by printing only and is
not part of the returned dict. -/
def aggregate_data (rows : List Row) (cfg : Config) : Except PyErr AggResult :=
  let st := aggLoop cfg initState rows
  finalizeAgg cfg st.totals st.seriesTotals st.groupsSet st.seriesSet

end BuildDashboards

namespace UpdateData

/-- The digit-run match starting exactly at the head of the list
(`\d{4}` at this position). -/
def window4d? : List Char → Option String
  | a :: b :: c :: d :: _ =>
    if a.isDigit && b.isDigit && c.isDigit && d.isDigit then some (String.mk [a, b, c, d]) else none
  | _ => none

/-- `re.search(r'(\d{4})', s)`: leftmost four consecutive digits. -/
def findDigits4 : List Char → Option String
  | [] => none
  | c :: rest =>
    match window4d? (c :: rest) with
    | some y => some y
    | none => findDigits4 rest

/-- `extract_year` of `update_data.py` (lines 78-85): `"Unknown"` on
falsy input, otherwise the first four consecutive digits of the
`str()` rendering, falling back to the stripped rendering itself when
there are none — this variant never drops a row. -/
def extract_year (value : Scalar) : String :=
  if !value.truthy then "Unknown"
  else
    match findDigits4 (pyStr value).toList with
    | some y => y
    | none => pyStrip (pyStr value)

/-- The mapping dict read by `row_matches_mapping` in `update_data.py`
(its spelling of the row filter): `field` with the `.get('field', '')`
default applied, optional `include` and `includeContains` lists. -/
structure Mapping where
  field : String := ""
  includeList : Option (List Scalar) := none
  includeContains : Option (List String) := none
deriving DecidableEq, Repr

/-- The generator inside `any(item.lower() in value.lower() for item in
mapping['includeContains'])`: items are consumed left to right, and
evaluating `value.lower()` on a numeric value raises
`AttributeError` — which an empty list never reaches. -/
def containsAnyLower (value : Scalar) : List String → Except PyErr Bool
  | [] => .ok false
  | item :: rest =>
    match value with
    | .num _ => .error .attributeError
    | .str s => if strContainsSub s.toLower item.toLower then .ok true else containsAnyLower value rest

/-- `row_matches_mapping` (lines 112-134).  Unlike
`row_matches_filter` it calls `value.lower()` without `str()`, so a
numeric field value raises once the contains list is nonempty. -/
def row_matches_mapping (row : Row) (mapping : Option Mapping) : Except PyErr Bool :=
  match mapping with
  | none => .ok true
  | some mp =>
    let value := filterValue row mp.field
    let inclOk :=
      match mp.includeList with
      | none => true
      | some lst => decide (value ∈ lst)
    if !inclOk then .ok false
    else
      match mp.includeContains with
      | none => .ok true
      | some lst => containsAnyLower value lst

/-- The group key a row ends up with (lines 156-158); this variant's
`extract_year` always returns a string, so no row is ever dropped for
its year. -/
def effGroup (cfg : Config) (row : Row) : Scalar :=
  let g0 := row.get cfg.groupBy (.str "")
  if cfg.extractYear then .str (extract_year g0) else g0

/-- The loop state of `update_data.aggregate_data` (lines 147-150):
as `AggState` but with no skipped-row counter. -/
structure UState where
  totals : List (Scalar × List (Scalar × ℚ)) := []
  seriesTotals : List (Scalar × ℚ) := []
  groupsSet : List Scalar := []
  seriesSet : List Scalar := []
deriving Repr

def initState : UState := {}

/-- One iteration of the `for row in rows` loop (lines 152-169). -/
def processRow (cfg : Config) (mapping : Option Mapping) (st : UState) (row : Row) :
    Except PyErr UState :=
  match row_matches_mapping row mapping with
  | .error e => .error e
  | .ok keep =>
    if !keep then .ok st
    else
      let groupValue := effGroup cfg row
      let seriesValue := seriesKey cfg row
      let value := rowValue cfg row
      if !groupValue.truthy then .ok st
      else
        .ok { totals := tAdd groupValue seriesValue value st.totals
              seriesTotals := alAdd seriesValue value st.seriesTotals
              groupsSet := setAdd groupValue st.groupsSet
              seriesSet := setAdd seriesValue st.seriesSet }

/-- The whole record loop, stopping at the first raised exception. -/
def aggLoop (cfg : Config) (mapping : Option Mapping) : UState → List Row → Except PyErr UState
  | st, [] => .ok st
  | st, row :: rest =>
    match processRow cfg mapping st row with
    | .error e => .error e
    | .ok st' => aggLoop cfg mapping st' rest

/-- `aggregate_data(rows, config, mapping)` of `update_data.py` (lines
137-201).  The selection/sort/assembly tail is the shared
`finalizeAgg`, being verbatim identical to `build_dashboards.py`'s. -/
def aggregate_data (rows : List Row) (cfg : Config) (mapping : Option Mapping) :
    Except PyErr AggResult :=
  match aggLoop cfg mapping initState rows with
  | .error e => .error e
  | .ok st => finalizeAgg cfg st.totals st.seriesTotals st.groupsSet st.seriesSet

end UpdateData

/-! ### Specification-side definitions

These follow the spec's words rather than the code, for comparison
against the embedded functions. -/

/-- A maximal digit run accumulated by `specYearByRuns`, accepted when
it has exactly 4 digits and its value is in 1900-2099. -/
def finishRun (acc : List Char) : Option String :=
  if acc.length = 4 ∧ 1900 ≤ digitsToNat acc ∧ digitsToNat acc ≤ 2099 then some (String.mk acc)
  else none

/-- Walk the characters keeping the current maximal digit run in
`acc`; when a run ends, accept it if `finishRun` does. -/
def yearRunsGo : List Char → List Char → Option String
  | acc, [] => finishRun acc
  | acc, c :: rest =>
    if c.isDigit then yearRunsGo (acc ++ [c]) rest
    else
      match finishRun acc with
      | some y => some y
      | none => yearRunsGo [] rest

/-- The year extractor as the claim words it: "the first run of
exactly 4 digits in value whose numeric value lies in 1900-2099
inclusive", `none` when no such run exists.  (A run is a maximal
stretch of consecutive digits.) -/
def specYearByRuns (s : String) : Option String :=
  yearRunsGo [] s.toList

/-- The leftmost four-character window of the string matching
`19\d{2}|20\d{2}` — equivalently, the first 4-digit substring whose
value is in 1900-2099 — expressed positionally, for comparison with
the recursive scan `findYearScan`. -/
def firstYearSubstring (s : String) : Option String :=
  (List.range s.toList.length).findSome? (fun i => window4? (s.toList.drop i))

/-- The normalizer as the claim words it: "strips '$', ',' and
whitespace from string input before parsing it as a float" — all
whitespace, not only the space character. -/
def specNormalize (value : Scalar) : ℚ :=
  match value with
  | .num q => q
  | .str s =>
    if s = "" then 0
    else
      let cleaned := String.mk (s.toList.filter (fun c => !(c == '$' || c == ',' || pyIsSpace c)))
      match pyFloat cleaned with
      | some q => q
      | none => 0

/-! ### Which rows feed a (group, series) cell -/

namespace BuildDashboards

/-- A row passes the filter, is not dropped by year extraction, and
lands exactly in group `g` and series `s`. -/
def contributes (cfg : Config) (g s : Scalar) (row : Row) : Bool :=
  row_matches_filter row cfg.filter && (effGroup cfg row == some g) && (seriesKey cfg row == s)

/-- The exact sum of normalized values of the rows contributing to
group `g`, series `s`, in input order. -/
def groupSeriesSum (cfg : Config) (g s : Scalar) (rows : List Row) : ℚ :=
  ((rows.filter (contributes cfg g s)).map (rowValue cfg)).sum

/-- The set of group keys observed by the record loop (the contents of
`groups_set` when the loop finishes). -/
def observedGroups (rows : List Row) (cfg : Config) : List Scalar :=
  (aggLoop cfg initState rows).groupsSet

end BuildDashboards

/-! ### Lemmas about the dict and set model -/

theorem alGet_alAdd (k : Scalar) (v : ℚ) (l : List (Scalar × ℚ)) (k' : Scalar) :
    alGet (alAdd k v l) k' = alGet l k' + (if k = k' then v else 0) := by
  induction l with
  | nil =>
    by_cases h : k = k' <;> simp [alAdd, alGet, h]
  | cons p rest ih =>
    obtain ⟨k0, v0⟩ := p
    by_cases h0 : k0 = k
    · subst h0
      by_cases h1 : k0 = k'
      · subst h1
        simp [alAdd, alGet]
      · simp [alAdd, alGet, h1]
    · by_cases h1 : k0 = k'
      · subst h1
        have hk : k ≠ k0 := fun h => h0 h.symm
        simp [alAdd, alGet, h0, hk]
      · simp [alAdd, alGet, h0, h1, ih]

theorem tGetG_tAdd (g s : Scalar) (v : ℚ) (t : List (Scalar × List (Scalar × ℚ))) (g' : Scalar) :
    tGetG (tAdd g s v t) g' = if g = g' then alAdd s v (tGetG t g') else tGetG t g' := by
  induction t with
  | nil =>
    by_cases h : g = g' <;> simp [tAdd, tGetG, h]
  | cons p rest ih =>
    obtain ⟨g0, m0⟩ := p
    by_cases h0 : g0 = g
    · subst h0
      by_cases h1 : g0 = g'
      · subst h1
        simp [tAdd, tGetG]
      · simp [tAdd, tGetG, h1]
    · by_cases h1 : g0 = g'
      · subst h1
        have hg : g ≠ g0 := fun h => h0 h.symm
        simp [tAdd, tGetG, h0, hg]
      · simp [tAdd, tGetG, h0, h1, ih]

theorem tGet_tAdd (g s : Scalar) (v : ℚ) (t : List (Scalar × List (Scalar × ℚ))) (g' s' : Scalar) :
    tGet (tAdd g s v t) g' s' = tGet t g' s' + (if g = g' ∧ s = s' then v else 0) := by
  unfold tGet
  rw [tGetG_tAdd]
  by_cases hg : g = g'
  · rw [if_pos hg, alGet_alAdd]
    by_cases hs : s = s'
    · simp [hg, hs]
    · simp [hg, hs]
  · rw [if_neg hg]
    simp [hg]

theorem mem_setAdd (x y : Scalar) (l : List Scalar) : y ∈ setAdd x l ↔ y ∈ l ∨ y = x := by
  unfold setAdd
  by_cases h : x ∈ l
  · rw [if_pos h]
    constructor
    · exact fun hy => Or.inl hy
    · rintro (hy | rfl)
      · exact hy
      · exact h
  · rw [if_neg h]
    simp

/-! ### Lemmas about the group sort -/

theorem pySortedScalars_perm (gs l : List Scalar) (h : pySortedScalars gs = .ok l) :
    l.Perm gs := by
  unfold pySortedScalars at h
  by_cases h1 : gs.all Scalar.isStr
  · rw [if_pos h1] at h
    cases h
    exact List.perm_insertionSort strKeyLe gs
  · rw [if_neg h1] at h
    by_cases h2 : gs.all Scalar.isNum
    · rw [if_pos h2] at h
      cases h
      exact List.perm_insertionSort numKeyLe gs
    · rw [if_neg h2] at h
      exact absurd h (by simp)

theorem sortGroups_perm (gs l : List Scalar) (h : sortGroups gs = .ok l) : l.Perm gs := by
  unfold sortGroups at h
  by_cases h1 : gs.all (fun g => (pyIntOfScalar g).isSome)
  · rw [if_pos h1] at h
    cases h
    exact List.perm_insertionSort intKeyLe gs
  · rw [if_neg h1] at h
    exact pySortedScalars_perm gs l h

theorem sortGroups_spec (gs l : List Scalar) (h : sortGroups gs = .ok l) :
    ((gs.all (fun g => (pyIntOfScalar g).isSome)) = true →
      l.Sorted intKeyLe ∧ l.Perm gs) ∧
    ((gs.all (fun g => (pyIntOfScalar g).isSome)) = false →
      l.Sorted strKeyLe ∧ l.Perm gs) := by
  unfold sortGroups at h
  by_cases h1 : gs.all (fun g => (pyIntOfScalar g).isSome)
  · rw [if_pos h1] at h
    cases h
    refine ⟨fun _ => ⟨List.sorted_insertionSort intKeyLe gs, List.perm_insertionSort intKeyLe gs⟩,
      fun hcon => absurd h1 (by simp [hcon])⟩
  · rw [if_neg h1] at h
    refine ⟨fun hcon => absurd hcon h1, fun _ => ?_⟩
    unfold pySortedScalars at h
    by_cases h2 : gs.all Scalar.isStr
    · rw [if_pos h2] at h
      cases h
      exact ⟨List.sorted_insertionSort strKeyLe gs, List.perm_insertionSort strKeyLe gs⟩
    · rw [if_neg h2] at h
      by_cases h3 : gs.all Scalar.isNum
      · exfalso
        apply h1
        rw [List.all_eq_true] at h3 ⊢
        intro g hg
        have := h3 g hg
        cases g with
        | str s => simp [Scalar.isNum] at this
        | num q => simp [pyIntOfScalar]
      · rw [if_neg h3] at h
        exact absurd h (by simp)

/-! ### Lemmas about the record loop of `build_dashboards.aggregate_data` -/

namespace BuildDashboards

/-- How one loop iteration moves a single `totals` cell: it grows by
the row's value exactly when the row contributes to that cell. -/
theorem processRow_tGet (cfg : Config) (st : AggState) (row : Row) (g s : Scalar)
    (hg : g.truthy = true) :
    tGet (processRow cfg st row).totals g s =
      tGet st.totals g s + (if contributes cfg g s row then rowValue cfg row else 0) := by
  unfold processRow contributes
  by_cases hf : row_matches_filter row cfg.filter
  · rw [hf]
    simp only [Bool.not_true, Bool.false_eq_true, if_false]
    cases heff : effGroup cfg row with
    | none => simp
    | some gv =>
      dsimp only
      by_cases htr : gv.truthy
      · rw [htr]
        simp only [Bool.not_true, Bool.false_eq_true, if_false]
        rw [tGet_tAdd]
        congr 1
        by_cases hgv : gv = g
        · subst hgv
          by_cases hs : seriesKey cfg row = s <;> simp [hs]
        · have : ¬(gv = g ∧ seriesKey cfg row = s) := fun hc => hgv hc.1
          simp [hgv, this]
      · rw [Bool.not_eq_true] at htr
        rw [htr]
        have hgv : gv ≠ g := fun hc => by rw [hc, hg] at htr; cases htr
        simp [hgv]
  · rw [Bool.not_eq_true] at hf
    rw [hf]
    simp

/-- Unfolding one row off the loop. -/
theorem aggLoop_cons (cfg : Config) (st : AggState) (row : Row) (rest : List Row) :
    aggLoop cfg st (row :: rest) = aggLoop cfg (processRow cfg st row) rest := rfl

/-- The loop invariant behind sum conservation: for a truthy group
key, the final `totals` cell is its initial value plus the exact sum
of the contributing rows' normalized values. -/
theorem aggLoop_tGet (cfg : Config) (g s : Scalar) (hg : g.truthy = true) :
    ∀ (rows : List Row) (st : AggState),
      tGet (aggLoop cfg st rows).totals g s = tGet st.totals g s + groupSeriesSum cfg g s rows := by
  intro rows
  induction rows with
  | nil =>
    intro st
    simp [aggLoop, groupSeriesSum]
  | cons row rest ih =>
    intro st
    rw [aggLoop_cons, ih, processRow_tGet cfg st row g s hg]
    unfold groupSeriesSum
    by_cases hc : contributes cfg g s row
    · rw [List.filter_cons_of_pos hc]
      simp [hc, add_assoc]
    · rw [List.filter_cons_of_neg (by simpa using hc)]
      simp [hc]

/-- Every group key the loop records is truthy. -/
theorem aggLoop_groupsSet_truthy (cfg : Config) :
    ∀ (rows : List Row) (st : AggState),
      (∀ x ∈ st.groupsSet, x.truthy = true) →
      ∀ x ∈ (aggLoop cfg st rows).groupsSet, x.truthy = true := by
  intro rows
  induction rows with
  | nil => intro st h; exact h
  | cons row rest ih =>
    intro st h
    rw [aggLoop_cons]
    apply ih
    intro x hx
    unfold processRow at hx
    by_cases hf : row_matches_filter row cfg.filter
    · rw [hf] at hx
      simp only [Bool.not_true, Bool.false_eq_true, if_false] at hx
      cases heff : effGroup cfg row with
      | none =>
        rw [heff] at hx
        exact h x hx
      | some gv =>
        rw [heff] at hx
        dsimp only at hx
        by_cases htr : gv.truthy
        · rw [htr] at hx
          simp only [Bool.not_true, Bool.false_eq_true, if_false] at hx
          rcases (mem_setAdd gv x st.groupsSet).1 hx with hmem | rfl
          · exact h x hmem
          · exact htr
        · rw [Bool.not_eq_true] at htr
          rw [htr] at hx
          exact h x hx
    · rw [Bool.not_eq_true] at hf
      rw [hf] at hx
      exact h x hx

/-- Anatomy of a successful `aggregate_data` run: the groups are the
sorted observed group set, the series are the series selection, and
each data entry reads its cells out of the final `totals`. -/
theorem aggregate_ok_destruct (rows : List Row) (cfg : Config) (r : AggResult)
    (h : aggregate_data rows cfg = .ok r) :
    sortGroups (observedGroups rows cfg) = .ok r.groups ∧
    r.series = seriesSelection cfg (aggLoop cfg initState rows).totals
      (aggLoop cfg initState rows).seriesTotals (aggLoop cfg initState rows).seriesSet ∧
    r.data = r.groups.map (fun g =>
      { group := g,
        series := r.series.map (fun s => (s, tGet (aggLoop cfg initState rows).totals g s)) }) := by
  simp only [aggregate_data, finalizeAgg] at h
  unfold observedGroups
  split at h
  · exact absurd h (by simp)
  · rename_i groups heq
    simp only [Except.ok.injEq] at h
    subst h
    exact ⟨heq, rfl, rfl⟩

end BuildDashboards

/-! ### Example inputs used by witnesses and counterexamples -/

/-- Two rows in different groups with different series keys. -/
def exRowsTwoSeries : List Row :=
  [[("g", .str "A"), ("s", .str "X"), ("v", .num 2)],
   [("g", .str "B"), ("s", .str "Y"), ("v", .num 1)]]

/-- Per-group top-1 selection over `exRowsTwoSeries`. -/
def perGroupCapCfg : Config :=
  { groupBy := "g", seriesBy := "s", valueField := "v", maxSeries := 1, topSeriesPerGroup := true }

/-- Global top-1 selection over `exRowsTwoSeries`. -/
def globalCapCfg : Config :=
  { groupBy := "g", seriesBy := "s", valueField := "v", maxSeries := 1 }

/-- The run of `globalCapCfg` over `exRowsTwoSeries`. -/
def globalCapResult : AggResult :=
  { groups := [.str "A", .str "B"], series := [.str "X"],
    data := [{ group := .str "A", series := [(.str "X", 2)] },
             { group := .str "B", series := [(.str "X", 0)] }] }

/-- Plain grouping of `exRowsTwoSeries` with default `maxSeries`. -/
def plainCfg : Config := { groupBy := "g", seriesBy := "s", valueField := "v" }

/-- The run of `plainCfg` over `exRowsTwoSeries`. -/
def plainResult : AggResult :=
  { groups := [.str "A", .str "B"], series := [.str "X", .str "Y"],
    data := [{ group := .str "A", series := [(.str "X", 2), (.str "Y", 0)] },
             { group := .str "B", series := [(.str "X", 0), (.str "Y", 1)] }] }

/-! ### C1 -/

/-- C1 (counterexample): with `topSeriesPerGroup` and `maxSeries = 1`,
two groups whose per-group top series differ retain 2 series — the
per-group policy does not re-apply the cap to the union, so
`len(series) <= maxSeries` fails. -/
theorem series_cap_cex :
    (BuildDashboards.aggregate_data exRowsTwoSeries perGroupCapCfg).map (fun r => r.series.length)
        = .ok 2 ∧
    perGroupCapCfg.maxSeries = 1 ∧ ¬((2 : Int) ≤ 1) := by
  decide

/-- C1 (amended): under the global selection policy
(`topSeriesPerGroup = false`) with a nonnegative `maxSeries`, the
returned series list has at most `maxSeries` entries; the per-group
policy instead caps each group's ranked list before the union, and
the union may exceed `maxSeries`. -/
theorem series_cap_global (rows : List Row) (cfg : Config) (r : AggResult)
    (h1 : cfg.topSeriesPerGroup = false) (h2 : 0 ≤ cfg.maxSeries)
    (h : BuildDashboards.aggregate_data rows cfg = .ok r) :
    (r.series.length : Int) ≤ cfg.maxSeries := by
  obtain ⟨-, hser, -⟩ := BuildDashboards.aggregate_ok_destruct rows cfg r h
  rw [hser]
  unfold seriesSelection
  rw [h1]
  simp only [Bool.false_and, Bool.false_eq_true, if_false]
  unfold pySlice
  rw [if_pos h2]
  calc ((List.take cfg.maxSeries.toNat _).length : Int)
      ≤ (cfg.maxSeries.toNat : Int) := by
        exact_mod_cast (List.length_take _ _).le.trans (min_le_left _ _)
    _ = cfg.maxSeries := Int.toNat_of_nonneg h2

theorem series_cap_global_witness :
    (globalCapResult.series.length : Int) ≤ globalCapCfg.maxSeries :=
  series_cap_global exRowsTwoSeries globalCapCfg globalCapResult rfl (by decide) (by decide)

/-! ### C2 -/

/-- C2: in a successful run, every cell of every data entry is the
exact sum, in input order, of the normalized values of precisely the
rows that pass the filter, survive year extraction, and land in that
entry's group and that cell's series. -/
theorem sum_conservation (rows : List Row) (cfg : Config) (r : AggResult)
    (h : BuildDashboards.aggregate_data rows cfg = .ok r)
    (e : DataEntry) (he : e ∈ r.data) (s : Scalar) (v : ℚ) (hsv : (s, v) ∈ e.series) :
    v = BuildDashboards.groupSeriesSum cfg e.group s rows := by
  obtain ⟨hsort, hser, hdata⟩ := BuildDashboards.aggregate_ok_destruct rows cfg r h
  rw [hdata] at he
  obtain ⟨g, hgmem, rfl⟩ := List.mem_map.1 he
  dsimp only at hsv ⊢
  obtain ⟨s', hs'mem, heq⟩ := List.mem_map.1 hsv
  have hs1 : s' = s := congrArg Prod.fst heq
  have hv1 := congrArg Prod.snd heq
  dsimp only at hv1
  rw [hs1] at hv1
  have hgset : g ∈ BuildDashboards.observedGroups rows cfg :=
    (sortGroups_perm _ _ hsort).mem_iff.1 hgmem
  have htruthy : g.truthy = true := by
    refine BuildDashboards.aggLoop_groupsSet_truthy cfg rows initState ?_ g hgset
    intro x hx
    simp [initState] at hx
  rw [← hv1, BuildDashboards.aggLoop_tGet cfg g s htruthy rows initState]
  simp [initState, tGet, tGetG, alGet]

theorem sum_conservation_witness :
    (2 : ℚ) = BuildDashboards.groupSeriesSum plainCfg (.str "A") (.str "X") exRowsTwoSeries :=
  sum_conservation exRowsTwoSeries plainCfg plainResult (by decide)
    { group := .str "A", series := [(.str "X", 2), (.str "Y", 0)] } (by decide)
    (.str "X") 2 (by decide)

/-! ### C6 -/

/-- C6 (counterexample): `maxSeries = -1` does not yield an empty
series list — Python's `[:-1]` slice keeps all but the last ranked
series, here one of two. -/
theorem negative_max_series_cex :
    (BuildDashboards.aggregate_data exRowsTwoSeries
        { groupBy := "g", seriesBy := "s", valueField := "v", maxSeries := -1 }).map
      (fun r => r.series) = .ok [Scalar.str "X"] ∧
    ([Scalar.str "X"] : List Scalar) ≠ [] := by
  decide

/-- C6 (amended): `maxSeries = 0` is degenerate but legal and yields
an empty series list and empty per-group series maps; a negative
`maxSeries` is also legal (no error) but keeps all-but-the-last
ranked series instead of none. -/
theorem zero_max_series_empty (rows : List Row) (cfg : Config) (r : AggResult)
    (h0 : cfg.maxSeries = 0)
    (h : BuildDashboards.aggregate_data rows cfg = .ok r) :
    r.series = [] ∧ ∀ e ∈ r.data, e.series = [] := by
  obtain ⟨-, hser, hdata⟩ := BuildDashboards.aggregate_ok_destruct rows cfg r h
  have hz : r.series = [] := by
    rw [hser]
    unfold seriesSelection
    rw [h0]
    simp [pySlice]
  refine ⟨hz, ?_⟩
  intro e he
  rw [hdata] at he
  obtain ⟨g, -, rfl⟩ := List.mem_map.1 he
  simp [hz]

/-- The run of `exRowsTwoSeries` under `maxSeries = 0`. -/
def zeroMaxResult : AggResult :=
  { groups := [.str "A", .str "B"], series := [],
    data := [{ group := .str "A", series := [] }, { group := .str "B", series := [] }] }

theorem zero_max_series_empty_witness :
    zeroMaxResult.series = [] ∧ ∀ e ∈ zeroMaxResult.data, e.series = [] :=
  zero_max_series_empty exRowsTwoSeries
    { groupBy := "g", seriesBy := "s", valueField := "v", maxSeries := 0 } zeroMaxResult
    (by decide) (by decide)

/-! ### C8 -/

/-- C8: in a successful run the group ordering is all-or-nothing: if
every observed group key parses as an integer the groups list is the
observed set sorted ascending by integer value; if at least one key
fails to parse, the whole list is sorted ascending lexicographically.
(When the lexicographic fallback meets a set mixing strings and
numbers it raises instead and no result exists, so both parts are
conditional on the returned result.) -/
theorem group_ordering (rows : List Row) (cfg : Config) (r : AggResult)
    (h : BuildDashboards.aggregate_data rows cfg = .ok r) :
    ((BuildDashboards.observedGroups rows cfg).all (fun g => (pyIntOfScalar g).isSome) = true →
      r.groups.Sorted intKeyLe ∧ r.groups.Perm (BuildDashboards.observedGroups rows cfg)) ∧
    ((BuildDashboards.observedGroups rows cfg).all (fun g => (pyIntOfScalar g).isSome) = false →
      r.groups.Sorted strKeyLe ∧ r.groups.Perm (BuildDashboards.observedGroups rows cfg)) := by
  obtain ⟨hsort, -, -⟩ := BuildDashboards.aggregate_ok_destruct rows cfg r h
  exact sortGroups_spec _ _ hsort

/-- Rows whose group keys all parse as integers, in several lexemes. -/
def numericGroupRows : List Row :=
  [[("g", .str "2023"), ("s", .str "a"), ("v", .num 7)],
   [("g", .num 5), ("s", .str "b"), ("v", .num 9)],
   [("g", .str " 20 "), ("s", .str "c"), ("v", .num 3)]]

def numericGroupResult : AggResult :=
  { groups := [.num 5, .str " 20 ", .str "2023"], series := [.str "b", .str "a", .str "c"],
    data := [{ group := .num 5, series := [(.str "b", 9), (.str "a", 0), (.str "c", 0)] },
             { group := .str " 20 ", series := [(.str "b", 0), (.str "a", 0), (.str "c", 3)] },
             { group := .str "2023", series := [(.str "b", 0), (.str "a", 7), (.str "c", 0)] }] }

theorem group_ordering_witness :
    numericGroupResult.groups.Sorted intKeyLe ∧
    numericGroupResult.groups.Perm (BuildDashboards.observedGroups numericGroupRows plainCfg) :=
  (group_ordering numericGroupRows plainCfg numericGroupResult (by decide)).1 (by decide)

/-! ### C3 -/

/-- C3 (counterexample): on `"202312"` the code returns `"2023"` (its
regex matches a 4-digit window inside a longer digit run), while the
claim's "first run of exactly 4 digits in 1900-2099" rule returns
null, the only digit run having 6 digits — so the claim's general rule
contradicts its own example and the code. -/
theorem extract_year_runs_cex :
    BuildDashboards.extract_year (.str "202312") = some "2023" ∧
    specYearByRuns "202312" = none := by
  decide

/-- The recursive leftmost regex scan coincides with the positional
"first matching 4-character window" description. -/
theorem findYearScan_eq (cs : List Char) :
    findYearScan cs = (List.range cs.length).findSome? (fun i => window4? (cs.drop i)) := by
  induction cs with
  | nil => rfl
  | cons c rest ih =>
    have h1 : List.range (c :: rest).length = 0 :: (List.range rest.length).map Nat.succ :=
      List.range_succ_eq_map rest.length
    rw [h1, List.findSome?_cons]
    cases hw : window4? (c :: rest) with
    | some y =>
      simp only [List.drop_zero, hw]
      simp [findYearScan, hw]
    | none =>
      simp only [List.drop_zero, hw]
      rw [List.findSome?_map]
      have h2 : ((fun i => window4? ((c :: rest).drop i)) ∘ Nat.succ) =
          fun i => window4? (rest.drop i) := by
        funext i
        simp [List.drop_succ_cons]
      rw [h2]
      simp only [findYearScan, hw]
      exact ih

/-- C3 (amended): `extract_year` returns the leftmost 4-character
window matching `19\d{2}|20\d{2}` — the first 4-digit substring whose
value is in 1900-2099, even inside a longer digit run — of the
stripped string, `none` when there is no such window (and on falsy
input); the claim's three examples hold. -/
theorem extract_year_first_window :
    (∀ s : String, BuildDashboards.extract_year (.str s) = firstYearSubstring (pyStrip s)) ∧
    BuildDashboards.extract_year (.str "202312") = some "2023" ∧
    BuildDashboards.extract_year (.str "2023-2024") = some "2023" ∧
    BuildDashboards.extract_year (.str "N/A") = none := by
  refine ⟨?_, by decide, by decide, by decide⟩
  intro s
  by_cases hs : s = ""
  · subst hs
    decide
  · have ht : (Scalar.str s).truthy = true := by
      simp [Scalar.truthy, hs]
    unfold BuildDashboards.extract_year firstYearSubstring
    rw [ht]
    simp only [Bool.not_true, Bool.false_eq_true, if_false]
    exact findYearScan_eq _

/-! ### C4 -/

/-- C4 (counterexample): `to_number` strips only the space character,
not all whitespace: on `"1\t0"` the code fails the parse and returns
0, while the claim's "strip whitespace then parse" reading yields 10. -/
theorem normalize_whitespace_cex :
    to_number (.str "1\x090") = 0 ∧ specNormalize (.str "1\x090") = 10 ∧ ((0 : ℚ) ≠ 10) := by
  decide

/-- C4 (amended): native numbers pass through unchanged, falsy input
(empty string, zero) normalizes to 0, `'$'`, `','` and the space
character (not all whitespace) are stripped before parsing, parse
failure yields 0 without throwing; the claim's examples hold, and an
interior tab defeats the parse. -/
theorem normalize_behavior :
    (∀ q : ℚ, to_number (.num q) = q) ∧
    (∀ v : Scalar, v.truthy = false → to_number v = 0) ∧
    to_number (.str "$1,234.50") = 1234.5 ∧
    to_number (.str "") = 0 ∧
    to_number (.str "abc") = 0 ∧
    to_number (.num 42) = 42 ∧
    to_number (.str "1\x090") = 0 := by
  refine ⟨fun q => rfl, ?_, ?_, by decide, by decide, by decide, by decide⟩
  · intro v hv
    cases v with
    | num q =>
      have hq : q = 0 := by
        simp [Scalar.truthy] at hv
        exact hv
      rw [hq]
      rfl
    | str s =>
      have hs : s = "" := by
        simp [Scalar.truthy] at hv
        exact hv
      rw [hs]
      decide
  · have h : to_number (.str "$1,234.50") = mkRat 2469 2 := by decide
    rw [h, Rat.mkRat_eq_div]
    norm_num

theorem normalize_behavior_witness : to_number (.num 0) = 0 :=
  normalize_behavior.2.1 (.num 0) (by decide)

/-! ### C5 -/

/-- A row whose `seriesBy` field `"s"` is absent. -/
def missingSeriesRow : Row := [("g", .str "A"), ("v", .num 5)]

/-- C5 (counterexample): a record missing the configured `seriesBy`
field does contribute to a named series — `row.get(series_by,
'Total')` defaults it into `"Total"`, which appears in the output with
the record's (nonzero) value. -/
theorem missing_series_field_cex :
    missingSeriesRow.get? "s" = none ∧
    BuildDashboards.aggregate_data [missingSeriesRow] plainCfg =
      .ok { groups := [.str "A"], series := [.str "Total"],
            data := [{ group := .str "A", series := [(.str "Total", 5)] }] } ∧
    ((5 : ℚ) ≠ 0) := by
  decide

/-- C5 (amended): a record with a missing configured field raises no
exception; a missing `groupBy` field makes the row contribute to no
accumulator, a missing filter field is read as the empty string, a
missing `valueField` is read as 0 — but a missing `seriesBy` field
defaults the series key to `"Total"` (the same key as when no
`seriesBy` is configured), which is a named series of the output, not
a filtered-out empty key. -/
theorem missing_fields_behavior (cfg : Config) (st : AggState) (row : Row) (f : FilterSpec) :
    (row.get? cfg.groupBy = none →
      (BuildDashboards.processRow cfg st row).totals = st.totals ∧
      (BuildDashboards.processRow cfg st row).seriesTotals = st.seriesTotals ∧
      (BuildDashboards.processRow cfg st row).groupsSet = st.groupsSet ∧
      (BuildDashboards.processRow cfg st row).seriesSet = st.seriesSet) ∧
    (row.get? cfg.seriesBy = none → seriesKey cfg row = .str "Total") ∧
    (row.get? cfg.valueField = none → rowValue cfg row = 0) ∧
    (row.get? f.field = none → filterValue row f.field = .str "") := by
  refine ⟨?_, ?_, ?_, ?_⟩
  · intro hg
    have hrow : Row.get row cfg.groupBy (.str "") = .str "" := by
      unfold Row.get
      rw [hg]
      rfl
    have heff : BuildDashboards.effGroup cfg row =
        if cfg.extractYear then none else some (.str "") := by
      unfold BuildDashboards.effGroup
      rw [hrow]
      cases hext : cfg.extractYear
      · simp
      · simp [BuildDashboards.extract_year, Scalar.truthy]
    unfold BuildDashboards.processRow
    by_cases hf2 : BuildDashboards.row_matches_filter row cfg.filter
    · rw [hf2]
      simp only [Bool.not_true, Bool.false_eq_true, if_false]
      rw [heff]
      cases hext : cfg.extractYear
      · simp [Scalar.truthy]
      · simp
    · rw [Bool.not_eq_true] at hf2
      rw [hf2]
      simp
  · intro hs
    unfold seriesKey Row.get
    rw [hs]
    split <;> rfl
  · intro hv
    unfold rowValue Row.get
    rw [hv]
    rfl
  · intro hff
    unfold filterValue Row.get
    rw [hff]
    rfl

/-- A row missing the fields `"g"`, `"s"`, `"v"` and `"q"`. -/
def unrelatedRow : Row := [("x", .num 1)]

theorem missing_fields_behavior_witness :
    ((BuildDashboards.processRow plainCfg initState unrelatedRow).totals = initState.totals ∧
      (BuildDashboards.processRow plainCfg initState unrelatedRow).seriesTotals
        = initState.seriesTotals ∧
      (BuildDashboards.processRow plainCfg initState unrelatedRow).groupsSet
        = initState.groupsSet ∧
      (BuildDashboards.processRow plainCfg initState unrelatedRow).seriesSet
        = initState.seriesSet) ∧
    seriesKey plainCfg unrelatedRow = .str "Total" ∧
    rowValue plainCfg unrelatedRow = 0 ∧
    filterValue unrelatedRow "q" = .str "" :=
  ⟨(missing_fields_behavior plainCfg initState unrelatedRow { field := "q" }).1 (by decide),
   (missing_fields_behavior plainCfg initState unrelatedRow { field := "q" }).2.1 (by decide),
   (missing_fields_behavior plainCfg initState unrelatedRow { field := "q" }).2.2.1 (by decide),
   (missing_fields_behavior plainCfg initState unrelatedRow { field := "q" }).2.2.2 (by decide)⟩

/-! ### C7 -/

/-- Rows whose group keys mix an unparseable string with a number. -/
def mixedGroupRows : List Row := [[("g", .str "abc")], [("g", .num 5)]]

/-- C7: the failing input.  Both rows are processed fine, but the
group sort's `except ValueError` fallback `sorted(groups_set)`
compares a string with a number and raises an uncaught `TypeError`,
aborting the run — contradicting the no-abort claim. -/
theorem mixed_group_keys_type_error :
    BuildDashboards.aggregate_data mixedGroupRows { groupBy := "g" } = .error .typeError := by
  decide

/-! ### C10 -/

/-- C10: a present-but-empty `contains` (respectively
`includeContains`) list rejects every record: `any()` over an empty
generator is `False` regardless of the record and of any `include`
condition that passed. -/
theorem empty_contains_rejects (row : Row) (f : FilterSpec) (m : UpdateData.Mapping)
    (hf : f.containsList = some []) (hm : m.includeContains = some []) :
    BuildDashboards.row_matches_filter row (some f) = false ∧
    UpdateData.row_matches_mapping row (some m) = .ok false := by
  constructor
  · unfold BuildDashboards.row_matches_filter
    dsimp only
    rw [hf]
    simp
  · unfold UpdateData.row_matches_mapping
    dsimp only
    rw [hm]
    split <;> rfl

theorem empty_contains_rejects_witness :
    BuildDashboards.row_matches_filter [("f", Scalar.str "x")]
        (some { field := "f", containsList := some [] }) = false ∧
    UpdateData.row_matches_mapping [("f", Scalar.str "x")]
        (some { field := "f", includeContains := some [] }) = .ok false :=
  empty_contains_rejects [("f", Scalar.str "x")] { field := "f", containsList := some [] }
    { field := "f", includeContains := some [] } rfl rfl

/-! ### C9 -/

/-- Unfolding one row off `update_data`'s loop. -/
theorem updateAggLoop_cons (cfg : Config) (m : Option UpdateData.Mapping)
    (st : UpdateData.UState) (row : Row) (rest : List Row) :
    UpdateData.aggLoop cfg m st (row :: rest) =
      match UpdateData.processRow cfg m st row with
      | .error e => .error e
      | .ok st' => UpdateData.aggLoop cfg m st' rest := rfl

/-- With no filter and no year extraction, one loop iteration of the
two implementations moves corresponding states to corresponding
states, and `update_data`'s never raises. -/
theorem processRow_equiv (cfg : Config) (hy : cfg.extractYear = false) (hf : cfg.filter = none)
    (st : AggState) (ust : UpdateData.UState) (row : Row)
    (h1 : st.totals = ust.totals) (h2 : st.seriesTotals = ust.seriesTotals)
    (h3 : st.groupsSet = ust.groupsSet) (h4 : st.seriesSet = ust.seriesSet) :
    ∃ ust', UpdateData.processRow cfg none ust row = .ok ust' ∧
      (BuildDashboards.processRow cfg st row).totals = ust'.totals ∧
      (BuildDashboards.processRow cfg st row).seriesTotals = ust'.seriesTotals ∧
      (BuildDashboards.processRow cfg st row).groupsSet = ust'.groupsSet ∧
      (BuildDashboards.processRow cfg st row).seriesSet = ust'.seriesSet := by
  have hmatch : BuildDashboards.row_matches_filter row cfg.filter = true := by
    rw [hf]
    rfl
  have heff : BuildDashboards.effGroup cfg row = some (UpdateData.effGroup cfg row) := by
    unfold BuildDashboards.effGroup UpdateData.effGroup
    rw [hy]
    simp
  unfold BuildDashboards.processRow UpdateData.processRow
  rw [hmatch, heff]
  simp only [UpdateData.row_matches_mapping]
  by_cases hg : (UpdateData.effGroup cfg row).truthy
  · rw [hg]
    simp only [Bool.not_true, Bool.false_eq_true, if_false]
    exact ⟨_, rfl, by rw [h1], by rw [h2], by rw [h3], by rw [h4]⟩
  · rw [Bool.not_eq_true] at hg
    rw [hg]
    simp only [Bool.not_false, if_true]
    exact ⟨ust, rfl, h1, h2, h3, h4⟩

/-- With no filter and no year extraction, the whole loops of the two
implementations stay in lockstep. -/
theorem aggLoop_equiv (cfg : Config) (hy : cfg.extractYear = false) (hf : cfg.filter = none) :
    ∀ (rows : List Row) (st : AggState) (ust : UpdateData.UState),
      st.totals = ust.totals → st.seriesTotals = ust.seriesTotals →
      st.groupsSet = ust.groupsSet → st.seriesSet = ust.seriesSet →
      ∃ ust', UpdateData.aggLoop cfg none ust rows = .ok ust' ∧
        (BuildDashboards.aggLoop cfg st rows).totals = ust'.totals ∧
        (BuildDashboards.aggLoop cfg st rows).seriesTotals = ust'.seriesTotals ∧
        (BuildDashboards.aggLoop cfg st rows).groupsSet = ust'.groupsSet ∧
        (BuildDashboards.aggLoop cfg st rows).seriesSet = ust'.seriesSet := by
  intro rows
  induction rows with
  | nil =>
    intro st ust h1 h2 h3 h4
    exact ⟨ust, rfl, h1, h2, h3, h4⟩
  | cons row rest ih =>
    intro st ust h1 h2 h3 h4
    obtain ⟨ust1, hstep, e1, e2, e3, e4⟩ := processRow_equiv cfg hy hf st ust row h1 h2 h3 h4
    obtain ⟨ust', hloop, f1, f2, f3, f4⟩ :=
      ih (BuildDashboards.processRow cfg st row) ust1 e1 e2 e3 e4
    refine ⟨ust', ?_, ?_, ?_, ?_, ?_⟩
    · rw [updateAggLoop_cons, hstep]
      exact hloop
    · rw [BuildDashboards.aggLoop_cons]
      exact f1
    · rw [BuildDashboards.aggLoop_cons]
      exact f2
    · rw [BuildDashboards.aggLoop_cons]
      exact f3
    · rw [BuildDashboards.aggLoop_cons]
      exact f4

/-- C9: with `extractYear` off and no filter (respectively no
mapping), the `aggregate_data` of `build_dashboards.py` and the
`aggregate_data` of `update_data.py` return equal results on every
record sequence — same groups, same series, same data. -/
theorem aggregate_impls_agree (rows : List Row) (cfg : Config)
    (hy : cfg.extractYear = false) (hf : cfg.filter = none) :
    BuildDashboards.aggregate_data rows cfg = UpdateData.aggregate_data rows cfg none := by
  obtain ⟨ust', hloop, e1, e2, e3, e4⟩ :=
    aggLoop_equiv cfg hy hf rows initState UpdateData.initState rfl rfl rfl rfl
  unfold BuildDashboards.aggregate_data UpdateData.aggregate_data
  rw [hloop]
  dsimp only
  rw [e1, e2, e3, e4]

theorem aggregate_impls_agree_witness :
    BuildDashboards.aggregate_data exRowsTwoSeries plainCfg =
      UpdateData.aggregate_data exRowsTwoSeries plainCfg none :=
  aggregate_impls_agree exRowsTwoSeries plainCfg rfl rfl
